import Mathlib

/-!
Shallow embedding of the movie-catalog HTTP service
(`src/routes/movies.py`, `src/schemas/movies.py`).

Modelling conventions:
* The relational database session is a `Catalog` value holding the rows of
  every table together with the next primary key of each sequence; every
  handler is a pure function from a `Catalog` (and its request arguments)
  to `Except ApiError` of a result, returning the new catalog when it writes.
* Calendar dates are integers (a day ordinal); `today` is a parameter of the
  validators and `timedelta(days=365)` is the integer `365`.
* Python floats (`score`, `budget`, `revenue`) are modelled as `ℚ`.
* `database/models.py` is not part of the sources; the ORM models are
  modelled from the spec: a `Movie` row has the scalar columns of §3 of the
  spec, a foreign key to its country and id lists for its many-to-many
  relations.  Since `setattr` on an ORM object can store Python `None` in a
  scalar attribute, the scalar columns of a `MovieModel` are `Option`-typed;
  rows produced by the create handler always hold `some` values.
* Pydantic field validation is modelled as a pure function from the raw
  payload to `Except String` of the validated schema; a field validator on
  an `Optional` field applies its check to the supplied non-null values.
-/

/-- Modelled from the spec: the movie status enumeration
("status (enum: released/in production/etc.)", spec §3);
`database/models.py` is not among the sources. -/
inductive MovieStatusEnum where
  | released
  | postProduction
  | inProduction
deriving DecidableEq, Repr

/-- Modelled from the spec: a country row — id, unique 2–3 letter code,
optional name (spec §3). -/
structure CountryModel where
  id : Nat
  code : String
  name : Option String
deriving DecidableEq, Repr

/-- Modelled from the spec: a name-keyed lookup row (genre / actor /
language all have the shape id + unique name, spec §3). -/
structure NamedModel where
  id : Nat
  name : String
deriving DecidableEq, Repr

abbrev GenreModel := NamedModel
abbrev ActorModel := NamedModel
abbrev LanguageModel := NamedModel

/-- Modelled from the spec: a movie row (spec §3).  Scalar columns are
`Option`-typed because the handlers can assign Python `None` to an ORM
attribute; rows written by the create handler hold `some` values.
`date` is a day ordinal, floats are `ℚ`.  Relations are kept as the
country foreign key and the id lists of the three association tables. -/
structure MovieModel where
  id : Nat
  name : Option String
  date : Option Int
  score : Option ℚ
  overview : Option String
  status : Option MovieStatusEnum
  budget : Option ℚ
  revenue : Option ℚ
  country_id : Nat
  genre_ids : List Nat
  actor_ids : List Nat
  language_ids : List Nat
deriving DecidableEq, Repr

/-- The database state seen by one request: every table plus the next
value of each primary-key sequence. -/
structure Catalog where
  movies : List MovieModel
  countries : List CountryModel
  genres : List GenreModel
  actors : List ActorModel
  languages : List LanguageModel
  nextMovieId : Nat
  nextCountryId : Nat
  nextGenreId : Nat
  nextActorId : Nat
  nextLanguageId : Nat
deriving DecidableEq, Repr

/-- The error responses raised by the handlers via `HTTPException`:
404 with a detail message, 409 with a detail message. -/
inductive ApiError where
  | notFound (detail : String)
  | conflict (detail : String)
deriving DecidableEq, Repr

/-! ### Response schemas (`src/schemas/movies.py`) -/

/-- `MovieListItemSchema`: the lightweight summary of one movie.  Field
types mirror the `MovieModel` attributes they are copied from. -/
structure MovieListItemSchema where
  id : Nat
  name : Option String
  date : Option Int
  score : Option ℚ
  overview : Option String
deriving DecidableEq, Repr

/-- `MovieListResponseSchema`. -/
structure MovieListResponseSchema where
  movies : List MovieListItemSchema
  prev_page : Option String
  next_page : Option String
  total_pages : Nat
  total_items : Nat
deriving DecidableEq, Repr

/-- `CountrySchema`. -/
structure CountrySchema where
  id : Nat
  name : Option String
  code : String
deriving DecidableEq, Repr

/-- `GenreSchema` / `ActorSchema` / `LanguageSchema` (id + name). -/
structure NamedSchema where
  id : Nat
  name : String
deriving DecidableEq, Repr

/-- `MovieDetailSchema`: full detail with nested relation objects.
`country` is `Option`-valued because it models the row produced by the
`joinedload` (absent when the foreign key dangles). -/
structure MovieDetailSchema where
  id : Nat
  name : Option String
  date : Option Int
  score : Option ℚ
  overview : Option String
  status : Option MovieStatusEnum
  budget : Option ℚ
  revenue : Option ℚ
  country : Option CountrySchema
  languages : List NamedSchema
  genres : List NamedSchema
  actors : List NamedSchema
deriving DecidableEq, Repr

/-! ### Create payload and its validation -/

/-- `MovieCreateSchema`: the create payload, after pydantic type-parsing
(all fields required).  Validation of the field constraints is the
separate function `validateMovieCreate`. -/
structure MovieCreateSchema where
  name : String
  date : Int
  score : ℚ
  overview : String
  status : MovieStatusEnum
  budget : ℚ
  revenue : ℚ
  country : String
  genres : List String
  actors : List String
  languages : List String
deriving DecidableEq, Repr

/-- `'A' ≤ c ≤ 'Z'`: one character of the character class `[A-Z]`. -/
def isUpperAlpha (c : Char) : Bool :=
  'A' ≤ c && c ≤ 'Z'

/-- `re.fullmatch(r"[A-Z]{2,3}", s)`: 2 or 3 characters, all in `[A-Z]`. -/
def countryCodeOk (s : String) : Bool :=
  (2 ≤ s.length && s.length ≤ 3) && s.toList.all isUpperAlpha

/-- The field constraints of `MovieCreateSchema`:
`name = Field(max_length=255)`, `score = Field(ge=0, le=100)`,
`budget = Field(ge=0)`, `revenue = Field(ge=0)`, the `date_not_too_far`
validator (`v ≤ today + 365`) and the `country_alpha3` validator
(`[A-Z]{2,3}`).  Returns the validated payload or the first error. -/
def validateMovieCreate (today : Int) (p : MovieCreateSchema) :
    Except String MovieCreateSchema :=
  if 255 < p.name.length then
    .error "String should have at most 255 characters"
  else if p.score < 0 ∨ 100 < p.score then
    .error "Input should be in the range [0, 100]"
  else if p.budget < 0 then
    .error "Input should be greater than or equal to 0"
  else if p.revenue < 0 then
    .error "Input should be greater than or equal to 0"
  else if today + 365 < p.date then
    .error "Movie date cannot be more than 1 year in the future"
  else if ¬ countryCodeOk p.country then
    .error "Country must be a 3-letter uppercase code"
  else
    .ok p

/-! ### Update payload and its validation -/

/-- One key of a raw JSON object: absent, present with value `null`, or
present with a (typed) value.  Pydantic distinguishes the three states
(`exclude_unset` keeps `null`-valued keys but drops absent ones). -/
inductive RawField (α : Type) where
  | absent
  | null
  | val (v : α)
deriving DecidableEq, Repr

/-- The raw body of a PATCH request, before validation.  It carries the
seven declared fields of `MovieUpdateSchema` and, in addition, a
`country` key: the `mode="before"` model validator reads `country` from
the raw dict even though it is not a declared field. -/
structure MovieUpdateInput where
  name : RawField String
  date : RawField Int
  score : RawField ℚ
  overview : RawField String
  status : RawField MovieStatusEnum
  budget : RawField ℚ
  revenue : RawField ℚ
  country : RawField String
deriving DecidableEq, Repr

/-- `MovieUpdateSchema`: all seven fields `Optional` with default `None`;
each field remembers whether it was unset, set to `null`, or set to a
value.  `country` is not a declared field, so it does not appear here:
pydantic drops the key after the before-validator runs. -/
structure MovieUpdateSchema where
  name : RawField String
  date : RawField Int
  score : RawField ℚ
  overview : RawField String
  status : RawField MovieStatusEnum
  budget : RawField ℚ
  revenue : RawField ℚ
deriving DecidableEq, Repr

/-- `str.upper` on the ASCII country codes handled here: uppercase every
character. -/
def pyUpper (s : String) : String :=
  ⟨s.data.map Char.toUpper⟩

/-- The `validate_country` before-validator of `MovieUpdateSchema`: when
the raw dict has a non-null `country` value it is uppercased and must
match `[A-Z]{2,3}`; a missing or null `country` is left alone. -/
def validate_country (inp : MovieUpdateInput) : Except String MovieUpdateInput :=
  match inp.country with
  | .absent => .ok inp
  | .null => .ok inp
  | .val v =>
      let u := pyUpper v
      if countryCodeOk u then .ok { inp with country := .val u }
      else .error "Country code must be 2 or 3 uppercase letters"

/-- A constraint on an `Optional` field is violated when the key is
present with a non-null value that fails the check; an absent or
null key is left alone. -/
def RawField.violates (f : RawField α) (bad : α → Bool) : Bool :=
  match f with
  | .val v => bad v
  | _ => false

/-- The two ways validating a PATCH body can fail: a pydantic
`ValidationError` (a constraint violation, or a `ValueError` raised in a
validator — surfaced as HTTP 422), or an uncaught `TypeError` escaping
the `date_not_too_far` validator when it receives an explicitly-supplied
null (`None > date.today() + timedelta(days=365)`); pydantic v2 converts
only `ValueError`/`AssertionError`, so the `TypeError` propagates and the
request dies (HTTP 500). -/
inductive PydanticError where
  | validation (msg : String)
  | typeError (msg : String)
deriving DecidableEq, Repr

/-- The per-field phase of `MovieUpdateSchema` validation, after the
before-validator: `name` length ≤ 255, `score ∈ [0,100]`,
`budget, revenue ≥ 0`, `date ≤ today + 365`, each applied to the
supplied non-null values.  A `date` key supplied as explicit null
reaches `date_not_too_far` (only unset defaults skip field validators)
where `None > date` raises a `TypeError`; that exception aborts the
whole validation and takes precedence over any collected field errors,
so its test comes first.  On success the seven declared fields are kept
with their unset / null / value state (`country` is not among them). -/
def validateUpdateFields (today : Int) (inp1 : MovieUpdateInput) :
    Except PydanticError MovieUpdateSchema :=
  if inp1.date = .null then
    .error (.typeError "unsupported comparison between NoneType and date")
  else if inp1.name.violates (fun v => decide (255 < v.length)) then
    .error (.validation "String should have at most 255 characters")
  else if inp1.score.violates (fun v => decide (v < 0 ∨ 100 < v)) then
    .error (.validation "Input should be in the range [0, 100]")
  else if inp1.budget.violates (fun v => decide (v < 0)) then
    .error (.validation "Input should be greater than or equal to 0")
  else if inp1.revenue.violates (fun v => decide (v < 0)) then
    .error (.validation "Input should be greater than or equal to 0")
  else if inp1.date.violates (fun v => decide (today + 365 < v)) then
    .error (.validation "Movie date cannot be more than 1 year in the future")
  else
    .ok { name := inp1.name, date := inp1.date, score := inp1.score,
          overview := inp1.overview, status := inp1.status,
          budget := inp1.budget, revenue := inp1.revenue }

/-- Validation of a PATCH body: the `validate_country` before-validator
runs first (its `ValueError` becomes a `ValidationError` and field
validation never happens), then the per-field phase
`validateUpdateFields`. -/
def validateMovieUpdate (today : Int) (inp : MovieUpdateInput) :
    Except PydanticError MovieUpdateSchema :=
  match validate_country inp with
  | .error e => .error (.validation e)
  | .ok inp1 => validateUpdateFields today inp1

/-! ### List handler (`get_movies_list`) -/

/-- `order_by(desc(MovieModel.id))`: descending by id. -/
def movieDescId : MovieModel → MovieModel → Prop :=
  fun a b => b.id ≤ a.id

instance : DecidableRel movieDescId :=
  fun a b => Nat.decLe b.id a.id

instance : IsTotal MovieModel movieDescId :=
  ⟨fun a b => le_total b.id a.id⟩

instance : IsTrans MovieModel movieDescId :=
  ⟨fun _ _ _ hab hbc => le_trans hbc hab⟩

/-- The projection `MovieListItemSchema(id=movie.id, name=movie.name, ...)`. -/
def toListItem (movie : MovieModel) : MovieListItemSchema :=
  { id := movie.id, name := movie.name, date := movie.date,
    score := movie.score, overview := movie.overview }

/-- The pagination links: `f"{base_url}/movies/?page={p}&per_page={pp}"`
with `base_url = "/theater"`. -/
def pageLink (page per_page : Nat) : String :=
  "/theater" ++ "/movies/?page=" ++ toString page ++ "&per_page=" ++ toString per_page

/-- `GET /movies/`: counts the movies, 404 on an empty catalog, computes
`total_pages = (total_items + per_page - 1) // per_page`, 404 when the
page is out of range, otherwise selects the movies ordered by descending
id with `offset = per_page*(page-1)` and `limit = per_page` and assembles
the response with the prev/next links. -/
def get_movies_list (db : Catalog) (page : Nat) (per_page : Nat) :
    Except ApiError MovieListResponseSchema :=
  let total_items := db.movies.length
  let total_pages := (total_items + per_page - 1) / per_page
  if total_items = 0 then
    .error (.notFound "No movies found.")
  else if page > total_pages then
    .error (.notFound "Page out of range")
  else
    let movies :=
      ((List.insertionSort movieDescId db.movies).drop (per_page * (page - 1))).take per_page
    let movies_data := movies.map toListItem
    let prev_page := if page > 1 then some (pageLink (page - 1) per_page) else none
    let next_page := if page < total_pages then some (pageLink (page + 1) per_page) else none
    .ok { movies := movies_data, prev_page := prev_page, next_page := next_page,
          total_pages := total_pages, total_items := total_items }

/-! ### Detail handler (`get_movie`) -/

/-- `MovieDetailSchema.model_validate(movie)` with the relations loaded:
the country row behind the foreign key and the rows behind the three
association id lists. -/
def movieDetail (db : Catalog) (m : MovieModel) : MovieDetailSchema :=
  { id := m.id, name := m.name, date := m.date, score := m.score,
    overview := m.overview, status := m.status, budget := m.budget,
    revenue := m.revenue,
    country := (db.countries.find? (fun c => c.id == m.country_id)).map
      (fun c => { id := c.id, name := c.name, code := c.code }),
    genres := m.genre_ids.filterMap
      (fun i => (db.genres.find? (fun g => g.id == i)).map
        (fun g => ({ id := g.id, name := g.name } : NamedSchema))),
    actors := m.actor_ids.filterMap
      (fun i => (db.actors.find? (fun a => a.id == i)).map
        (fun a => ({ id := a.id, name := a.name } : NamedSchema))),
    languages := m.language_ids.filterMap
      (fun i => (db.languages.find? (fun l => l.id == i)).map
        (fun l => ({ id := l.id, name := l.name } : NamedSchema))) }

/-- `GET /movies/{movie_id}/`: 404 when no movie has the id, otherwise
the full detail. -/
def get_movie (db : Catalog) (movie_id : Nat) : Except ApiError MovieDetailSchema :=
  match db.movies.find? (fun m => m.id == movie_id) with
  | none => .error (.notFound "Movie with the given ID was not found.")
  | some movie => .ok (movieDetail db movie)

/-! ### Create handler (`create_movie`) -/

/-- The country upsert: select by code; when absent, add
`CountryModel(code=movie_in.country, name=None)` and flush (the new row
becomes visible with the next sequence id). -/
def getOrCreateCountry (db : Catalog) (code : String) : CountryModel × Catalog :=
  match db.countries.find? (fun c => c.code == code) with
  | some c => (c, db)
  | none =>
      let c : CountryModel := { id := db.nextCountryId, code := code, name := none }
      (c, { db with countries := db.countries ++ [c],
                    nextCountryId := db.nextCountryId + 1 })

/-- One iteration of the genre/actor/language loops: select by name;
when absent, add a row with that name and flush. -/
def getOrCreateNamed (rows : List NamedModel) (nextId : Nat) (name : String) :
    NamedModel × List NamedModel × Nat :=
  match rows.find? (fun g => g.name == name) with
  | some g => (g, rows, nextId)
  | none =>
      let g : NamedModel := { id := nextId, name := name }
      (g, rows ++ [g], nextId + 1)

/-- The whole loop over a list of names, threading the table and the
sequence; returns the resolved rows in payload order. -/
def getOrCreateNamedList (rows : List NamedModel) (nextId : Nat) (names : List String) :
    List NamedModel × List NamedModel × Nat :=
  match names with
  | [] => ([], rows, nextId)
  | n :: rest =>
      let (g, rows1, id1) := getOrCreateNamed rows nextId n
      let (gs, rows2, id2) := getOrCreateNamedList rows1 id1 rest
      (g :: gs, rows2, id2)

/-- `POST /movies/`: 409 when a movie with the same (name, date) exists;
otherwise resolves/creates the country and the genre/actor/language rows,
inserts the movie linked to them, commits, and returns the full detail. -/
def create_movie (db : Catalog) (movie_in : MovieCreateSchema) :
    Except ApiError (Catalog × MovieDetailSchema) :=
  match db.movies.find?
      (fun m => m.name == some movie_in.name && m.date == some movie_in.date) with
  | some _ =>
      .error (.conflict ("A movie with the name '" ++ movie_in.name ++
        "' and release date '" ++ toString movie_in.date ++ "' already exists."))
  | none =>
      let (country, db1) := getOrCreateCountry db movie_in.country
      let (genres, grows, gid) := getOrCreateNamedList db1.genres db1.nextGenreId movie_in.genres
      let db2 := { db1 with genres := grows, nextGenreId := gid }
      let (actors, arows, aid) := getOrCreateNamedList db2.actors db2.nextActorId movie_in.actors
      let db3 := { db2 with actors := arows, nextActorId := aid }
      let (languages, lrows, lid) :=
        getOrCreateNamedList db3.languages db3.nextLanguageId movie_in.languages
      let db4 := { db3 with languages := lrows, nextLanguageId := lid }
      let movie : MovieModel :=
        { id := db4.nextMovieId, name := some movie_in.name, date := some movie_in.date,
          score := some movie_in.score, overview := some movie_in.overview,
          status := some movie_in.status, budget := some movie_in.budget,
          revenue := some movie_in.revenue, country_id := country.id,
          genre_ids := genres.map (fun g => g.id),
          actor_ids := actors.map (fun a => a.id),
          language_ids := languages.map (fun l => l.id) }
      let db5 := { db4 with movies := db4.movies ++ [movie],
                            nextMovieId := db4.nextMovieId + 1 }
      .ok (db5, movieDetail db5 movie)

/-! ### Delete handler (`delete_movie`) -/

/-- Removes the first element satisfying the predicate (the row the
select returned). -/
def removeFirst (p : α → Bool) : List α → List α
  | [] => []
  | x :: xs => if p x then xs else x :: removeFirst p xs

/-- `DELETE /movies/{movie_id}/`: 404 when no movie has the id, else
deletes the row and commits (association links cascade with the row). -/
def delete_movie (db : Catalog) (movie_id : Nat) : Except ApiError Catalog :=
  match db.movies.find? (fun m => m.id == movie_id) with
  | none => .error (.notFound "Movie with the given ID was not found.")
  | some _ =>
      .ok { db with movies := removeFirst (fun m => m.id == movie_id) db.movies }

/-! ### Update handler (`update_movie`) -/

/-- The effect, on one attribute, of the
`for key, value in movie_data.model_dump(exclude_unset=True).items():
setattr(movie, key, value)` loop: an unset key is not in the dump and
the attribute keeps its value; a key set to `null` assigns `None`; a key
set to a value assigns it. -/
def RawField.applied (f : RawField α) (old : Option α) : Option α :=
  match f with
  | .absent => old
  | .null => none
  | .val v => some v

/-- The setattr loop applied to every declared field of the update
schema; relations are untouched (the schema declares none). -/
def applyUpdate (movie : MovieModel) (movie_data : MovieUpdateSchema) : MovieModel :=
  { movie with
    name := movie_data.name.applied movie.name,
    date := movie_data.date.applied movie.date,
    score := movie_data.score.applied movie.score,
    overview := movie_data.overview.applied movie.overview,
    status := movie_data.status.applied movie.status,
    budget := movie_data.budget.applied movie.budget,
    revenue := movie_data.revenue.applied movie.revenue }

/-- Replaces the first element satisfying the predicate by its image
under `f` (the mutation of the single row the select returned). -/
def updateFirst (p : α → Bool) (f : α → α) : List α → List α
  | [] => []
  | x :: xs => if p x then f x :: xs else x :: updateFirst p f xs

/-- `PATCH /movies/{movie_id}/`: 404 when no movie has the id, else
applies the supplied fields to the row, commits, and returns the
confirmation message. -/
def update_movie (db : Catalog) (movie_id : Nat) (movie_data : MovieUpdateSchema) :
    Except ApiError (Catalog × String) :=
  match db.movies.find? (fun m => m.id == movie_id) with
  | none => .error (.notFound "Movie with the given ID was not found.")
  | some _ =>
      let movies1 :=
        updateFirst (fun m => m.id == movie_id)
          (fun m => applyUpdate m movie_data) db.movies
      .ok ({ db with movies := movies1 }, "Movie updated successfully.")


/-! ### Spec-level counting of rows by natural key -/

/-- Number of rows whose natural key equals `k`. -/
def countKey {α : Type} (key : α → String) (l : List α) (k : String) : Nat :=
  (l.filter (fun x => key x == k)).length

/-- The natural keys of the rows are pairwise distinct (the unique
constraint of the table). -/
def uniqueKeys {α : Type} (key : α → String) (l : List α) : Prop :=
  (l.map key).Nodup

/-- The state and response produced by a create without a (name, date)
conflict, written with explicit projections instead of the handler's
tuple destructuring; `create_movie_eq` proves it is exactly what
`create_movie` returns on the no-conflict path. -/
def createResult (db : Catalog) (movie_in : MovieCreateSchema) :
    Catalog × MovieDetailSchema :=
  let country := (getOrCreateCountry db movie_in.country).1
  let db1 := (getOrCreateCountry db movie_in.country).2
  let genres := (getOrCreateNamedList db1.genres db1.nextGenreId movie_in.genres).1
  let grows := (getOrCreateNamedList db1.genres db1.nextGenreId movie_in.genres).2.1
  let gid := (getOrCreateNamedList db1.genres db1.nextGenreId movie_in.genres).2.2
  let db2 := { db1 with genres := grows, nextGenreId := gid }
  let actors := (getOrCreateNamedList db2.actors db2.nextActorId movie_in.actors).1
  let arows := (getOrCreateNamedList db2.actors db2.nextActorId movie_in.actors).2.1
  let aid := (getOrCreateNamedList db2.actors db2.nextActorId movie_in.actors).2.2
  let db3 := { db2 with actors := arows, nextActorId := aid }
  let languages := (getOrCreateNamedList db3.languages db3.nextLanguageId movie_in.languages).1
  let lrows := (getOrCreateNamedList db3.languages db3.nextLanguageId movie_in.languages).2.1
  let lid := (getOrCreateNamedList db3.languages db3.nextLanguageId movie_in.languages).2.2
  let db4 := { db3 with languages := lrows, nextLanguageId := lid }
  let movie : MovieModel :=
    { id := db4.nextMovieId, name := some movie_in.name, date := some movie_in.date,
      score := some movie_in.score, overview := some movie_in.overview,
      status := some movie_in.status, budget := some movie_in.budget,
      revenue := some movie_in.revenue, country_id := country.id,
      genre_ids := genres.map (fun g => g.id),
      actor_ids := actors.map (fun a => a.id),
      language_ids := languages.map (fun l => l.id) }
  let db5 := { db4 with movies := db4.movies ++ [movie],
                        nextMovieId := db4.nextMovieId + 1 }
  (db5, movieDetail db5 movie)

/-! ### Concrete sample data used by witness theorems -/

/-- A well-formed movie row with the given id. -/
def movieW (i : Nat) : MovieModel :=
  { id := i, name := some ("Movie " ++ toString i), date := some 100,
    score := some 50, overview := some "overview", status := some .released,
    budget := some 1000, revenue := some 2000, country_id := 1,
    genre_ids := [1], actor_ids := [1], language_ids := [1] }

/-- A catalog with three movies and one row in each lookup table. -/
def dbW : Catalog :=
  { movies := [movieW 1, movieW 2, movieW 3],
    countries := [{ id := 1, code := "US", name := none }],
    genres := [{ id := 1, name := "Drama" }],
    actors := [{ id := 1, name := "Actor" }],
    languages := [{ id := 1, name := "English" }],
    nextMovieId := 4, nextCountryId := 2, nextGenreId := 2, nextActorId := 2,
    nextLanguageId := 2 }

/-- The empty catalog. -/
def dbEmpty : Catalog :=
  { movies := [], countries := [], genres := [], actors := [], languages := [],
    nextMovieId := 1, nextCountryId := 1, nextGenreId := 1, nextActorId := 1,
    nextLanguageId := 1 }

/-- A create payload referencing one existing and one new row of each
lookup table. -/
def payW : MovieCreateSchema :=
  { name := "New Movie", date := 200, score := 75, overview := "o",
    status := .released, budget := 10, revenue := 20, country := "FR",
    genres := ["Drama", "Comedy"], actors := ["Actor", "Other"],
    languages := ["French"] }

/-- An update payload touching `score` with a value and `overview` with
an explicit null. -/
def updW : MovieUpdateSchema :=
  { name := .absent, date := .absent, score := .val 80, overview := .null,
    status := .absent, budget := .absent, revenue := .absent }

/-- A raw PATCH body that supplies only `date`, as explicit null — the
payload on which the update validator crashes instead of accepting. -/
def updNullDate : MovieUpdateInput :=
  { name := .absent, date := .null, score := .absent, overview := .absent,
    status := .absent, budget := .absent, revenue := .absent,
    country := .absent }

/-- A raw PATCH body carrying a lowercase `country` key. -/
def updInputW : MovieUpdateInput :=
  { name := .absent, date := .absent, score := .val 80, overview := .null,
    status := .absent, budget := .absent, revenue := .absent,
    country := .val "fr" }

/-! ### Helper lemmas -/

/-- Removing a present match shortens the list by exactly one. -/
lemma removeFirst_length {α : Type} {p : α → Bool} {l : List α}
    (h : ∃ x ∈ l, p x = true) : (removeFirst p l).length + 1 = l.length := by
  induction l with
  | nil => simp at h
  | cons a l ih =>
      by_cases hpa : p a = true
      · simp [removeFirst, hpa]
      · obtain ⟨x, hx, hpx⟩ := h
        rcases List.mem_cons.mp hx with rfl | hx
        · exact absurd hpx hpa
        · simp [removeFirst, hpa, ih ⟨x, hx, hpx⟩]

/-- Elements that do not match the predicate survive `removeFirst`. -/
lemma mem_removeFirst {α : Type} {p : α → Bool} {l : List α} {x : α}
    (hx : x ∈ l) (hpx : ¬ p x = true) : x ∈ removeFirst p l := by
  induction l with
  | nil => simp at hx
  | cons a l ih =>
      by_cases hpa : p a = true
      · rcases List.mem_cons.mp hx with rfl | hx
        · exact absurd hpa hpx
        · simpa [removeFirst, hpa] using hx
      · rcases List.mem_cons.mp hx with rfl | hx
        · simp [removeFirst, hpa]
        · simp [removeFirst, hpa, ih hx]

/-- With primary keys unique, no movie with the removed id survives the
removal. -/
lemma removeFirst_id_free {l : List MovieModel} (mid : Nat)
    (hnd : (l.map (fun m => m.id)).Nodup) :
    ∀ x ∈ removeFirst (fun m => m.id == mid) l, x.id ≠ mid := by
  induction l with
  | nil => simp [removeFirst]
  | cons a l ih =>
      rw [List.map_cons, List.nodup_cons] at hnd
      by_cases hpa : (a.id == mid) = true
      · have hpa2 : a.id = mid := beq_iff_eq.mp hpa
        intro x hx
        have hx2 : x ∈ l := by simpa [removeFirst, hpa] using hx
        intro hxid
        exact hnd.1 (by
          rw [hpa2, ← hxid]
          exact List.mem_map_of_mem (fun m => m.id) hx2)
      · intro x hx
        rcases List.mem_cons.mp (by simpa [removeFirst, hpa] using hx) with rfl | hx2
        · simpa [beq_iff_eq] using hpa
        · exact ih hnd.2 x hx2

/-- With primary keys unique, the select by id returns the member row. -/
lemma find_id_unique {l : List MovieModel} {m : MovieModel} {mid : Nat}
    (hnd : (l.map (fun x => x.id)).Nodup) (hm : m ∈ l) (hid : m.id = mid) :
    l.find? (fun x => x.id == mid) = some m := by
  induction l with
  | nil => simp at hm
  | cons a l ih =>
      rw [List.map_cons, List.nodup_cons] at hnd
      rcases List.mem_cons.mp hm with rfl | hm2
      · simp [List.find?, beq_iff_eq, hid]
      · have ha : ¬ (a.id == mid) = true := by
          simp only [beq_iff_eq]
          intro haid
          exact hnd.1 (by
            rw [haid, ← hid]
            exact List.mem_map_of_mem (fun x => x.id) hm2)
        simp only [List.find?, Bool.not_eq_true] at ha ⊢
        rw [ha]
        exact ih hnd.2 hm2

/-- Elements that do not match the predicate are untouched by
`updateFirst`. -/
lemma mem_updateFirst {α : Type} {p : α → Bool} {f : α → α} {l : List α} {x : α}
    (hx : x ∈ l) (hpx : ¬ p x = true) : x ∈ updateFirst p f l := by
  induction l with
  | nil => simp at hx
  | cons a l ih =>
      by_cases hpa : p a = true
      · rcases List.mem_cons.mp hx with rfl | hx
        · exact absurd hpa hpx
        · simp [updateFirst, hpa, hx]
      · rcases List.mem_cons.mp hx with rfl | hx
        · simp [updateFirst, hpa]
        · simp [updateFirst, hpa, ih hx]

/-- After updating the unique row with the given id, the select by id
returns its image. -/
lemma updateFirst_find {l : List MovieModel} {m : MovieModel} {mid : Nat}
    (hnd : (l.map (fun x => x.id)).Nodup) (hm : m ∈ l) (hid : m.id = mid)
    (f : MovieModel → MovieModel) (hfid : ∀ x, (f x).id = x.id) :
    (updateFirst (fun x => x.id == mid) f l).find? (fun x => x.id == mid) = some (f m) := by
  induction l with
  | nil => simp at hm
  | cons a l ih =>
      rw [List.map_cons, List.nodup_cons] at hnd
      rcases List.mem_cons.mp hm with rfl | hm2
      · have hm_t : ((fun x => x.id == mid) m) = true := by simp [beq_iff_eq, hid]
        rw [updateFirst, if_pos hm_t]
        exact List.find?_cons_of_pos _ (by simp [beq_iff_eq, hfid m, hid])
      · have ha : ¬ (((fun x => x.id == mid) a) = true) := by
          simp only [beq_iff_eq]
          intro haid
          exact hnd.1 (by
            rw [haid, ← hid]
            exact List.mem_map_of_mem (fun x => x.id) hm2)
        rw [updateFirst, if_neg ha]
        rw [List.find?_cons_of_neg _ (by simpa using ha)]
        exact ih hnd.2 hm2

/-- The successful PATCH: the handler answers with the confirmation
message and the stored row becomes `applyUpdate m md`. -/
lemma update_movie_ok (db : Catalog) (mid : Nat) (md : MovieUpdateSchema)
    (m : MovieModel) (hnd : (db.movies.map (fun x => x.id)).Nodup)
    (hm : m ∈ db.movies) (hid : m.id = mid) :
    update_movie db mid md = .ok ({ db with movies := updateFirst (fun x => x.id == mid) (fun x => applyUpdate x md) db.movies }, "Movie updated successfully.") ∧
    (updateFirst (fun x => x.id == mid) (fun x => applyUpdate x md)
        db.movies).find? (fun x => x.id == mid) = some (applyUpdate m md) := by
  constructor
  · unfold update_movie
    rw [find_id_unique hnd hm hid]
  · exact updateFirst_find hnd hm hid (fun x => applyUpdate x md) (fun x => rfl)

/-! ### Claim theorems -/

/-- C1: for every catalog with at least one movie and every in-range
page/per_page with page ≤ total_pages, the list operation succeeds and
returns the movies ordered by descending id, skipping
`per_page * (page - 1)` of them and returning at most `per_page`, with
`total_items` the movie count and `total_pages` its ceiling division by
`per_page`. -/
theorem list_pagination_correct (db : Catalog) (page per_page : Nat)
    (hpage : 1 ≤ page) (hpp : 1 ≤ per_page) (hpp2 : per_page ≤ 20)
    (hne : 1 ≤ db.movies.length)
    (hple : page ≤ (db.movies.length + per_page - 1) / per_page) :
    ∃ r, get_movies_list db page per_page = .ok r ∧
      r.movies = (((List.insertionSort movieDescId db.movies).drop
        (per_page * (page - 1))).take per_page).map toListItem ∧
      r.movies.length ≤ per_page ∧
      List.Pairwise (fun a b => b.id ≤ a.id) r.movies ∧
      List.Perm (List.insertionSort movieDescId db.movies) db.movies ∧
      r.total_items = db.movies.length ∧
      r.total_pages = (db.movies.length + per_page - 1) / per_page := by
  have h0 : ¬ db.movies.length = 0 := by omega
  have hp : ¬ (db.movies.length + per_page - 1) / per_page < page := by omega
  have hsorted := List.sorted_insertionSort movieDescId db.movies
  have hsub : List.Sublist
      (((List.insertionSort movieDescId db.movies).drop
        (per_page * (page - 1))).take per_page)
      (List.insertionSort movieDescId db.movies) :=
    (List.take_sublist _ _).trans (List.drop_sublist _ _)
  have hpw := List.Pairwise.sublist hsub hsorted
  refine ⟨{ movies := (((List.insertionSort movieDescId db.movies).drop (per_page * (page - 1))).take per_page).map toListItem, prev_page := if page > 1 then some (pageLink (page - 1) per_page) else none, next_page := if page < (db.movies.length + per_page - 1) / per_page then some (pageLink (page + 1) per_page) else none, total_pages := (db.movies.length + per_page - 1) / per_page, total_items := db.movies.length }, ?_, rfl, ?_, ?_, List.perm_insertionSort movieDescId db.movies, rfl, rfl⟩
  · simp [get_movies_list, h0, hp]
  · rw [List.length_map]
    exact List.length_take_le _ _
  · exact List.pairwise_map.mpr hpw

/-- C2: with page ≥ 1 and per_page in [1, 20], listing fails with
NotFound exactly when the catalog has no movies or the page exceeds
`total_pages = ceil(total_items / per_page)`. -/
theorem list_not_found_iff (db : Catalog) (page per_page : Nat)
    (hpage : 1 ≤ page) (hpp : 1 ≤ per_page) (hpp2 : per_page ≤ 20) :
    (∃ d, get_movies_list db page per_page = .error (.notFound d)) ↔
      db.movies.length = 0 ∨
        (db.movies.length + per_page - 1) / per_page < page := by
  by_cases h0 : db.movies.length = 0
  · simp [get_movies_list, h0]
  · by_cases hp : (db.movies.length + per_page - 1) / per_page < page
    · simp [get_movies_list, h0, hp]
    · simp [get_movies_list, h0, hp]

/-- C3: creating fails with Conflict exactly when a movie with the same
(name, date) pair already exists; otherwise the create succeeds. -/
theorem create_conflict_iff (db : Catalog) (p : MovieCreateSchema) :
    ((∃ d, create_movie db p = .error (.conflict d)) ↔
      ∃ m ∈ db.movies, m.name = some p.name ∧ m.date = some p.date) ∧
    ((¬ ∃ m ∈ db.movies, m.name = some p.name ∧ m.date = some p.date) →
      ∃ db2 det, create_movie db p = .ok (db2, det)) := by
  cases hf : db.movies.find?
      (fun m => m.name == some p.name && m.date == some p.date) with
  | none =>
      have hall := List.find?_eq_none.mp hf
      constructor
      · constructor
        · intro ⟨d, hd⟩
          unfold create_movie at hd
          rw [hf] at hd
          simp at hd
        · intro ⟨m, hm, h1, h2⟩
          exact absurd (by simp [h1, h2]) (hall m hm)
      · intro _
        unfold create_movie
        rw [hf]
        exact ⟨_, _, rfl⟩
  | some m =>
      have hp := List.find?_some hf
      have hm := List.mem_of_find?_eq_some hf
      simp only [Bool.and_eq_true, beq_iff_eq] at hp
      constructor
      · constructor
        · intro _
          exact ⟨m, hm, hp.1, hp.2⟩
        · intro _
          unfold create_movie
          rw [hf]
          exact ⟨_, rfl⟩
      · intro hno
        exact absurd ⟨m, hm, hp.1, hp.2⟩ hno

/-- C6: updating an existing movie succeeds with the confirmation
message, applies exactly the supplied fields (value or null), keeps every
unset field, never touches the relations, the other rows or the other
tables, and a subsequent detail fetch reflects the updated row. -/
theorem update_partial_semantics (db : Catalog) (mid : Nat)
    (md : MovieUpdateSchema) (m : MovieModel)
    (hnd : (db.movies.map (fun x => x.id)).Nodup)
    (hm : m ∈ db.movies) (hid : m.id = mid) :
    ∃ db2, update_movie db mid md = .ok (db2, "Movie updated successfully.") ∧
      db2.movies.find? (fun x => x.id == mid) = some (applyUpdate m md) ∧
      (∀ v, md.name = .val v → (applyUpdate m md).name = some v) ∧
      (∀ v, md.date = .val v → (applyUpdate m md).date = some v) ∧
      (∀ v, md.score = .val v → (applyUpdate m md).score = some v) ∧
      (∀ v, md.overview = .val v → (applyUpdate m md).overview = some v) ∧
      (∀ v, md.status = .val v → (applyUpdate m md).status = some v) ∧
      (∀ v, md.budget = .val v → (applyUpdate m md).budget = some v) ∧
      (∀ v, md.revenue = .val v → (applyUpdate m md).revenue = some v) ∧
      (md.name = .absent → (applyUpdate m md).name = m.name) ∧
      (md.date = .absent → (applyUpdate m md).date = m.date) ∧
      (md.score = .absent → (applyUpdate m md).score = m.score) ∧
      (md.overview = .absent → (applyUpdate m md).overview = m.overview) ∧
      (md.status = .absent → (applyUpdate m md).status = m.status) ∧
      (md.budget = .absent → (applyUpdate m md).budget = m.budget) ∧
      (md.revenue = .absent → (applyUpdate m md).revenue = m.revenue) ∧
      (applyUpdate m md).country_id = m.country_id ∧
      (applyUpdate m md).genre_ids = m.genre_ids ∧
      (applyUpdate m md).actor_ids = m.actor_ids ∧
      (applyUpdate m md).language_ids = m.language_ids ∧
      (∀ x ∈ db.movies, x.id ≠ mid → x ∈ db2.movies) ∧
      db2.countries = db.countries ∧ db2.genres = db.genres ∧
      db2.actors = db.actors ∧ db2.languages = db.languages ∧
      get_movie db2 mid = .ok (movieDetail db2 (applyUpdate m md)) := by
  obtain ⟨h1, h2⟩ := update_movie_ok db mid md m hnd hm hid
  refine ⟨_, h1, h2, ?_, ?_, ?_, ?_, ?_, ?_, ?_, ?_, ?_, ?_, ?_, ?_, ?_, ?_,
    rfl, rfl, rfl, rfl, ?_, rfl, rfl, rfl, rfl, ?_⟩
  · intro v h
    simp [applyUpdate, RawField.applied, h]
  · intro v h
    simp [applyUpdate, RawField.applied, h]
  · intro v h
    simp [applyUpdate, RawField.applied, h]
  · intro v h
    simp [applyUpdate, RawField.applied, h]
  · intro v h
    simp [applyUpdate, RawField.applied, h]
  · intro v h
    simp [applyUpdate, RawField.applied, h]
  · intro v h
    simp [applyUpdate, RawField.applied, h]
  · intro h
    simp [applyUpdate, RawField.applied, h]
  · intro h
    simp [applyUpdate, RawField.applied, h]
  · intro h
    simp [applyUpdate, RawField.applied, h]
  · intro h
    simp [applyUpdate, RawField.applied, h]
  · intro h
    simp [applyUpdate, RawField.applied, h]
  · intro h
    simp [applyUpdate, RawField.applied, h]
  · intro h
    simp [applyUpdate, RawField.applied, h]
  · intro x hx hxid
    exact mem_updateFirst hx (by simp [beq_iff_eq, hxid])
  · unfold get_movie
    rw [show ({ db with movies := updateFirst (fun x => x.id == mid) (fun x => applyUpdate x md) db.movies } : Catalog).movies = updateFirst (fun x => x.id == mid) (fun x => applyUpdate x md) db.movies from rfl, h2]

/-- C7: deleting fails with NotFound exactly when no movie has the id;
deleting an existing id removes exactly that movie, leaves every other
row and table in place, and a subsequent detail fetch of the id fails
with NotFound. -/
theorem delete_not_found_iff (db : Catalog) (mid : Nat)
    (hnd : (db.movies.map (fun m => m.id)).Nodup) :
    ((∃ d, delete_movie db mid = .error (.notFound d)) ↔
      ∀ m ∈ db.movies, m.id ≠ mid) ∧
    (∀ m ∈ db.movies, m.id = mid →
      ∃ db2, delete_movie db mid = .ok db2 ∧
        db2.movies.length + 1 = db.movies.length ∧
        (∀ x ∈ db2.movies, x.id ≠ mid) ∧
        (∀ x ∈ db.movies, x.id ≠ mid → x ∈ db2.movies) ∧
        db2.countries = db.countries ∧ db2.genres = db.genres ∧
        db2.actors = db.actors ∧ db2.languages = db.languages ∧
        (∃ d, get_movie db2 mid = .error (.notFound d))) := by
  cases hf : db.movies.find? (fun m => m.id == mid) with
  | none =>
      have hall := List.find?_eq_none.mp hf
      constructor
      · constructor
        · intro _ m hm
          simpa [beq_iff_eq] using hall m hm
        · intro _
          unfold delete_movie
          rw [hf]
          exact ⟨_, rfl⟩
      · intro m hm hid
        exact absurd (by simp [hid]) (hall m hm)
  | some m0 =>
      have hp0 := List.find?_some hf
      have hp : m0.id = mid := by simpa [beq_iff_eq] using hp0
      have hm0 := List.mem_of_find?_eq_some hf
      constructor
      · constructor
        · intro ⟨d, hd⟩
          unfold delete_movie at hd
          rw [hf] at hd
          simp at hd
        · intro hnone
          exact absurd hp (hnone m0 hm0)
      · intro m hm hid
        refine ⟨{ db with movies := removeFirst (fun m => m.id == mid) db.movies },
          ?_, ?_, ?_, ?_, rfl, rfl, rfl, rfl, ?_⟩
        · unfold delete_movie
          rw [hf]
        · exact removeFirst_length ⟨m0, hm0, by simp [hp]⟩
        · exact removeFirst_id_free mid hnd
        · intro x hx hxid
          exact mem_removeFirst hx (by simp [beq_iff_eq, hxid])
        · have hnone : (removeFirst (fun m => m.id == mid) db.movies).find?
              (fun m => m.id == mid) = none := by
            rw [List.find?_eq_none]
            intro x hx
            simp [beq_iff_eq, removeFirst_id_free mid hnd x hx]
          refine ⟨"Movie with the given ID was not found.", ?_⟩
          unfold get_movie
          rw [show ({ db with movies := removeFirst (fun m => m.id == mid) db.movies } : Catalog).movies = removeFirst (fun m => m.id == mid) db.movies from rfl, hnone]

/-- C8: on a successful listing, prev_page is null exactly on the first
page and next_page is null exactly on the last; the non-null links are
the absolute paths `/theater/movies/?page=<n>&per_page=<m>` with
n = page∓1 and m = per_page. -/
theorem pagination_links_correct (db : Catalog) (page per_page : Nat)
    (hpage : 1 ≤ page) (hpp : 1 ≤ per_page) (hpp2 : per_page ≤ 20)
    (hne : 1 ≤ db.movies.length)
    (hple : page ≤ (db.movies.length + per_page - 1) / per_page) :
    ∃ r, get_movies_list db page per_page = .ok r ∧
      (r.prev_page = none ↔ page = 1) ∧
      (r.next_page = none ↔ (db.movies.length + per_page - 1) / per_page ≤ page) ∧
      (1 < page → r.prev_page = some (pageLink (page - 1) per_page)) ∧
      (page < (db.movies.length + per_page - 1) / per_page →
        r.next_page = some (pageLink (page + 1) per_page)) := by
  have h0 : ¬ db.movies.length = 0 := by omega
  have hp : ¬ (db.movies.length + per_page - 1) / per_page < page := by omega
  refine ⟨{ movies := (((List.insertionSort movieDescId db.movies).drop (per_page * (page - 1))).take per_page).map toListItem, prev_page := if page > 1 then some (pageLink (page - 1) per_page) else none, next_page := if page < (db.movies.length + per_page - 1) / per_page then some (pageLink (page + 1) per_page) else none, total_pages := (db.movies.length + per_page - 1) / per_page, total_items := db.movies.length }, ?_, ?_, ?_, ?_, ?_⟩
  · simp [get_movies_list, h0, hp]
  · by_cases h1 : 1 < page <;> simp [h1] <;> omega
  · by_cases h2 : page < (db.movies.length + per_page - 1) / per_page <;>
      simp [h2] <;> omega
  · intro h1
    simp [h1]
  · intro h2
    simp [h2]

/-- C9: when the raw PATCH body carries a `country` key with a string
value, the value is uppercased before the `[A-Z]{2,3}` check and an
invalid value rejects the request; yet `country` is not a declared field
of the update schema, so even a valid value never changes the movie's
country (or any other relation). -/
theorem update_country_dropped (today : Int) (inp : MovieUpdateInput) (v : String)
    (hv : inp.country = .val v) :
    (¬ countryCodeOk (pyUpper v) = true →
      validateMovieUpdate today inp =
        .error (.validation "Country code must be 2 or 3 uppercase letters")) ∧
    (countryCodeOk (pyUpper v) = true →
      validate_country inp = .ok { inp with country := .val (pyUpper v) }) ∧
    (∀ md, validateMovieUpdate today inp = .ok md →
      ∀ m, (applyUpdate m md).country_id = m.country_id ∧
        (applyUpdate m md).genre_ids = m.genre_ids ∧
        (applyUpdate m md).actor_ids = m.actor_ids ∧
        (applyUpdate m md).language_ids = m.language_ids) :=
  ⟨fun h => by
      unfold validateMovieUpdate validate_country
      rw [hv]
      simp [h],
   fun h => by
      unfold validate_country
      rw [hv]
      simp [h],
   fun md _ m => ⟨rfl, rfl, rfl, rfl⟩⟩

/-- C10: a PATCH field explicitly supplied as null is part of the applied
set — the update stores null in that attribute — while an unset field is
excluded and keeps its value. -/
theorem update_null_fields_applied (db : Catalog) (mid : Nat)
    (md : MovieUpdateSchema) (m : MovieModel)
    (hnd : (db.movies.map (fun x => x.id)).Nodup)
    (hm : m ∈ db.movies) (hid : m.id = mid) :
    ∃ db2, update_movie db mid md = .ok (db2, "Movie updated successfully.") ∧
      db2.movies.find? (fun x => x.id == mid) = some (applyUpdate m md) ∧
      (md.name = .null → (applyUpdate m md).name = none) ∧
      (md.date = .null → (applyUpdate m md).date = none) ∧
      (md.score = .null → (applyUpdate m md).score = none) ∧
      (md.overview = .null → (applyUpdate m md).overview = none) ∧
      (md.status = .null → (applyUpdate m md).status = none) ∧
      (md.budget = .null → (applyUpdate m md).budget = none) ∧
      (md.revenue = .null → (applyUpdate m md).revenue = none) ∧
      (md.name = .absent → (applyUpdate m md).name = m.name) ∧
      (md.date = .absent → (applyUpdate m md).date = m.date) ∧
      (md.score = .absent → (applyUpdate m md).score = m.score) ∧
      (md.overview = .absent → (applyUpdate m md).overview = m.overview) ∧
      (md.status = .absent → (applyUpdate m md).status = m.status) ∧
      (md.budget = .absent → (applyUpdate m md).budget = m.budget) ∧
      (md.revenue = .absent → (applyUpdate m md).revenue = m.revenue) := by
  obtain ⟨h1, h2⟩ := update_movie_ok db mid md m hnd hm hid
  refine ⟨_, h1, h2, ?_, ?_, ?_, ?_, ?_, ?_, ?_, ?_, ?_, ?_, ?_, ?_, ?_, ?_⟩ <;>
    intro h <;> simp [applyUpdate, RawField.applied, h]


lemma violates_iff {α : Type} (f : RawField α) (bad : α → Bool) :
    f.violates bad = true ↔ ∃ v, f = .val v ∧ bad v = true := by
  cases f <;> simp [RawField.violates]

lemma create_error_iff (today : Int) (p : MovieCreateSchema) :
    (∃ e, validateMovieCreate today p = .error e) ↔
      (255 < p.name.length ∨ p.score < 0 ∨ 100 < p.score ∨ p.budget < 0 ∨
       p.revenue < 0 ∨ today + 365 < p.date ∨ countryCodeOk p.country = false) := by
  constructor
  · intro ⟨e, he⟩
    unfold validateMovieCreate at he
    split_ifs at he with h1 h2 h3 h4 h5 h6
    · exact Or.inl h1
    · exact Or.inr (h2.elim (fun b => Or.inl b) (fun c => Or.inr (Or.inl c)))
    · exact Or.inr (Or.inr (Or.inr (Or.inl h3)))
    · exact Or.inr (Or.inr (Or.inr (Or.inr (Or.inl h4))))
    · exact Or.inr (Or.inr (Or.inr (Or.inr (Or.inr (Or.inl h5)))))
    · exact Or.inr (Or.inr (Or.inr (Or.inr (Or.inr (Or.inr (by simpa using h6))))))
  · intro hdis
    cases hres : validateMovieCreate today p with
    | error e => exact ⟨e, rfl⟩
    | ok q =>
        exfalso
        unfold validateMovieCreate at hres
        split_ifs at hres with h1 h2 h3 h4 h5 h6
        rcases hdis with h | h | h | h | h | h | h
        · exact h1 h
        · exact h2 (Or.inl h)
        · exact h2 (Or.inr h)
        · exact h3 h
        · exact h4 h
        · exact h5 h
        · rw [h] at h6
          exact Bool.false_ne_true h6

lemma create_ok_of_valid (today : Int) (p : MovieCreateSchema)
    (h : ¬ (255 < p.name.length ∨ p.score < 0 ∨ 100 < p.score ∨ p.budget < 0 ∨
       p.revenue < 0 ∨ today + 365 < p.date ∨ countryCodeOk p.country = false)) :
    validateMovieCreate today p = .ok p := by
  unfold validateMovieCreate
  rw [if_neg (fun hx => h (Or.inl hx))]
  rw [if_neg (fun hx => h (Or.inr (hx.elim (fun b => Or.inl b) (fun c => Or.inr (Or.inl c)))))]
  rw [if_neg (fun hx => h (Or.inr (Or.inr (Or.inr (Or.inl hx)))))]
  rw [if_neg (fun hx => h (Or.inr (Or.inr (Or.inr (Or.inr (Or.inl hx))))))]
  rw [if_neg (fun hx => h (Or.inr (Or.inr (Or.inr (Or.inr (Or.inr (Or.inl hx)))))))]
  rw [if_neg (fun hx => h (Or.inr (Or.inr (Or.inr (Or.inr (Or.inr (Or.inr (by simpa using hx))))))))]

/-- In the per-field phase, a validation error occurs exactly when the
date is not an explicit null (otherwise the `TypeError` wins) and some
supplied non-null value violates its constraint. -/
lemma validateUpdateFields_validation_iff (today : Int) (inp1 : MovieUpdateInput) :
    (∃ e, validateUpdateFields today inp1 = .error (.validation e)) ↔
      (inp1.date ≠ RawField.null ∧
        ((∃ v, inp1.name = RawField.val v ∧ 255 < v.length) ∨
         (∃ v, inp1.score = RawField.val v ∧ (v < 0 ∨ 100 < v)) ∨
         (∃ v, inp1.budget = RawField.val v ∧ v < 0) ∨
         (∃ v, inp1.revenue = RawField.val v ∧ v < 0) ∨
         (∃ v, inp1.date = RawField.val v ∧ today + 365 < v))) := by
  unfold validateUpdateFields
  by_cases hdn : inp1.date = RawField.null
  · simp [hdn]
  · rw [if_neg hdn]
    split_ifs with g1 g2 g3 g4 g5
    · refine ⟨fun _ => ⟨hdn, ?_⟩, fun _ => ⟨_, rfl⟩⟩
      obtain ⟨w, hw, hb⟩ := (violates_iff _ _).mp g1
      exact Or.inl ⟨w, hw, by simpa using hb⟩
    · refine ⟨fun _ => ⟨hdn, ?_⟩, fun _ => ⟨_, rfl⟩⟩
      obtain ⟨w, hw, hb⟩ := (violates_iff _ _).mp g2
      exact Or.inr (Or.inl ⟨w, hw, by simpa using hb⟩)
    · refine ⟨fun _ => ⟨hdn, ?_⟩, fun _ => ⟨_, rfl⟩⟩
      obtain ⟨w, hw, hb⟩ := (violates_iff _ _).mp g3
      exact Or.inr (Or.inr (Or.inl ⟨w, hw, by simpa using hb⟩))
    · refine ⟨fun _ => ⟨hdn, ?_⟩, fun _ => ⟨_, rfl⟩⟩
      obtain ⟨w, hw, hb⟩ := (violates_iff _ _).mp g4
      exact Or.inr (Or.inr (Or.inr (Or.inl ⟨w, hw, by simpa using hb⟩)))
    · refine ⟨fun _ => ⟨hdn, ?_⟩, fun _ => ⟨_, rfl⟩⟩
      obtain ⟨w, hw, hb⟩ := (violates_iff _ _).mp g5
      exact Or.inr (Or.inr (Or.inr (Or.inr ⟨w, hw, by simpa using hb⟩)))
    · constructor
      · intro ⟨e, he⟩
        simp at he
      · intro ⟨_, hdis⟩
        exfalso
        rcases hdis with ⟨w, hw, hb⟩ | ⟨w, hw, hb⟩ | ⟨w, hw, hb⟩ | ⟨w, hw, hb⟩ | ⟨w, hw, hb⟩
        · exact g1 ((violates_iff _ _).mpr ⟨w, hw, by simpa using hb⟩)
        · exact g2 ((violates_iff _ _).mpr ⟨w, hw, by simpa using hb⟩)
        · exact g3 ((violates_iff _ _).mpr ⟨w, hw, by simpa using hb⟩)
        · exact g4 ((violates_iff _ _).mpr ⟨w, hw, by simpa using hb⟩)
        · exact g5 ((violates_iff _ _).mpr ⟨w, hw, by simpa using hb⟩)

/-- In the per-field phase, the uncaught `TypeError` occurs exactly when
the date key is supplied as explicit null. -/
lemma validateUpdateFields_typeError_iff (today : Int) (inp1 : MovieUpdateInput) :
    (∃ e, validateUpdateFields today inp1 = .error (.typeError e)) ↔
      inp1.date = RawField.null := by
  unfold validateUpdateFields
  by_cases hdn : inp1.date = RawField.null
  · simp [hdn]
  · rw [if_neg hdn]
    split_ifs with g1 g2 g3 g4 g5 <;> simp [hdn]

/-- Lifted to the whole update validator: a validation error occurs
exactly when the country key carries an invalid string, or the date is
not an explicit null and some supplied non-null field violates its
constraint. -/
lemma update_validation_error_iff (today : Int) (inp : MovieUpdateInput) :
    (∃ e, validateMovieUpdate today inp = .error (.validation e)) ↔
      ((∃ v, inp.country = RawField.val v ∧ countryCodeOk (pyUpper v) = false) ∨
       (inp.date ≠ RawField.null ∧
        ((∃ v, inp.name = RawField.val v ∧ 255 < v.length) ∨
         (∃ v, inp.score = RawField.val v ∧ (v < 0 ∨ 100 < v)) ∨
         (∃ v, inp.budget = RawField.val v ∧ v < 0) ∨
         (∃ v, inp.revenue = RawField.val v ∧ v < 0) ∨
         (∃ v, inp.date = RawField.val v ∧ today + 365 < v)))) := by
  rcases hc : inp.country with _ | _ | v
  · have hvc : validate_country inp = .ok inp := by
      unfold validate_country
      rw [hc]
    unfold validateMovieUpdate
    rw [hvc]
    dsimp only
    rw [validateUpdateFields_validation_iff]
    simp
  · have hvc : validate_country inp = .ok inp := by
      unfold validate_country
      rw [hc]
    unfold validateMovieUpdate
    rw [hvc]
    dsimp only
    rw [validateUpdateFields_validation_iff]
    simp
  · by_cases hok : countryCodeOk (pyUpper v) = true
    · have hvc : validate_country inp = .ok { inp with country := .val (pyUpper v) } := by
        unfold validate_country
        rw [hc]
        simp [hok]
      unfold validateMovieUpdate
      rw [hvc]
      dsimp only
      rw [validateUpdateFields_validation_iff]
      simp [hok]
    · have herr : validateMovieUpdate today inp =
          .error (.validation "Country code must be 2 or 3 uppercase letters") := by
        unfold validateMovieUpdate validate_country
        rw [hc]
        simp [hok]
      rw [herr]
      constructor
      · intro _
        exact Or.inl ⟨v, rfl, by simpa using hok⟩
      · intro _
        exact ⟨_, rfl⟩

/-- Lifted to the whole update validator: the uncaught `TypeError`
occurs exactly when the country key does not already fail (the
before-validator runs first) and the date is supplied as explicit
null. -/
lemma update_typeError_iff (today : Int) (inp : MovieUpdateInput) :
    (∃ e, validateMovieUpdate today inp = .error (.typeError e)) ↔
      ((¬ ∃ v, inp.country = RawField.val v ∧ countryCodeOk (pyUpper v) = false) ∧
        inp.date = RawField.null) := by
  rcases hc : inp.country with _ | _ | v
  · have hvc : validate_country inp = .ok inp := by
      unfold validate_country
      rw [hc]
    unfold validateMovieUpdate
    rw [hvc]
    dsimp only
    rw [validateUpdateFields_typeError_iff]
    simp
  · have hvc : validate_country inp = .ok inp := by
      unfold validate_country
      rw [hc]
    unfold validateMovieUpdate
    rw [hvc]
    dsimp only
    rw [validateUpdateFields_typeError_iff]
    simp
  · by_cases hok : countryCodeOk (pyUpper v) = true
    · have hvc : validate_country inp = .ok { inp with country := .val (pyUpper v) } := by
        unfold validate_country
        rw [hc]
        simp [hok]
      unfold validateMovieUpdate
      rw [hvc]
      dsimp only
      rw [validateUpdateFields_typeError_iff]
      simp [hok]
    · have herr : validateMovieUpdate today inp =
          .error (.validation "Country code must be 2 or 3 uppercase letters") := by
        unfold validateMovieUpdate validate_country
        rw [hc]
        simp [hok]
      rw [herr]
      constructor
      · intro ⟨e, he⟩
        simp at he
      · intro ⟨hnb, _⟩
        exact absurd ⟨v, rfl, by simpa using hok⟩ hnb

/-- The update validator accepts when the country key does not fail, the
date is not an explicit null, and no supplied non-null field violates
its constraint. -/
lemma update_ok_of_valid (today : Int) (inp : MovieUpdateInput)
    (h1 : ¬ ∃ v, inp.country = RawField.val v ∧ countryCodeOk (pyUpper v) = false)
    (h2 : inp.date ≠ RawField.null)
    (h3 : ¬ ((∃ v, inp.name = RawField.val v ∧ 255 < v.length) ∨
       (∃ v, inp.score = RawField.val v ∧ (v < 0 ∨ 100 < v)) ∨
       (∃ v, inp.budget = RawField.val v ∧ v < 0) ∨
       (∃ v, inp.revenue = RawField.val v ∧ v < 0) ∨
       (∃ v, inp.date = RawField.val v ∧ today + 365 < v))) :
    ∃ md, validateMovieUpdate today inp = .ok md := by
  cases hres : validateMovieUpdate today inp with
  | ok md => exact ⟨md, rfl⟩
  | error e =>
      exfalso
      cases e with
      | validation msg =>
          rcases (update_validation_error_iff today inp).mp ⟨msg, hres⟩ with
            hcb | ⟨_, hdis⟩
          · exact h1 hcb
          · exact h3 hdis
      | typeError msg =>
          obtain ⟨_, hdn⟩ := (update_typeError_iff today inp).mp ⟨msg, hres⟩
          exact h2 hdn

/-- C5 (amended): a create payload is rejected with a validation error
exactly when one of its field constraints fails (name over 255 chars,
score outside [0,100], negative budget or revenue, date after
today+365, country code not matching 2-3 uppercase letters), and
otherwise is accepted unchanged.  An update payload is checked against
the same rules only on the fields it supplies with non-null values —
except that a payload supplying `date` as explicit null is never
accepted: the `date_not_too_far` validator receives the null and the
request fails with an uncaught `TypeError` (not a validation error),
which takes precedence over any field-constraint violations; in every
other case the payload is accepted exactly when no supplied non-null
field violates its rule. -/
theorem payload_validation_iff (today : Int) (p : MovieCreateSchema)
    (inp : MovieUpdateInput) :
    ((∃ e, validateMovieCreate today p = .error e) ↔
      (255 < p.name.length ∨ p.score < 0 ∨ 100 < p.score ∨ p.budget < 0 ∨
       p.revenue < 0 ∨ today + 365 < p.date ∨
       countryCodeOk p.country = false)) ∧
    ((¬ (255 < p.name.length ∨ p.score < 0 ∨ 100 < p.score ∨ p.budget < 0 ∨
       p.revenue < 0 ∨ today + 365 < p.date ∨
       countryCodeOk p.country = false)) →
      validateMovieCreate today p = .ok p) ∧
    ((∃ e, validateMovieUpdate today inp = .error (.validation e)) ↔
      ((∃ v, inp.country = RawField.val v ∧ countryCodeOk (pyUpper v) = false) ∨
       (inp.date ≠ RawField.null ∧
        ((∃ v, inp.name = RawField.val v ∧ 255 < v.length) ∨
         (∃ v, inp.score = RawField.val v ∧ (v < 0 ∨ 100 < v)) ∨
         (∃ v, inp.budget = RawField.val v ∧ v < 0) ∨
         (∃ v, inp.revenue = RawField.val v ∧ v < 0) ∨
         (∃ v, inp.date = RawField.val v ∧ today + 365 < v))))) ∧
    ((∃ e, validateMovieUpdate today inp = .error (.typeError e)) ↔
      ((¬ ∃ v, inp.country = RawField.val v ∧ countryCodeOk (pyUpper v) = false) ∧
        inp.date = RawField.null)) ∧
    (((¬ ∃ v, inp.country = RawField.val v ∧ countryCodeOk (pyUpper v) = false) ∧
       inp.date ≠ RawField.null ∧
       ¬ ((∃ v, inp.name = RawField.val v ∧ 255 < v.length) ∨
         (∃ v, inp.score = RawField.val v ∧ (v < 0 ∨ 100 < v)) ∨
         (∃ v, inp.budget = RawField.val v ∧ v < 0) ∨
         (∃ v, inp.revenue = RawField.val v ∧ v < 0) ∨
         (∃ v, inp.date = RawField.val v ∧ today + 365 < v))) →
      ∃ md, validateMovieUpdate today inp = .ok md) :=
  ⟨create_error_iff today p, fun h => create_ok_of_valid today p h,
   update_validation_error_iff today inp, update_typeError_iff today inp,
   fun h => update_ok_of_valid today inp h.1 h.2.1 h.2.2⟩

/-- C5 counterexample: the PATCH body supplying only `date` as explicit
null violates none of the claimed field constraints, yet the program
neither accepts it nor rejects it with a validation error — the
`date_not_too_far` validator receives the null and the request dies
with an uncaught `TypeError`. -/
theorem update_null_date_not_accepted :
    (¬ ((∃ v, updNullDate.country = RawField.val v ∧ countryCodeOk (pyUpper v) = false) ∨
        (∃ v, updNullDate.name = RawField.val v ∧ 255 < v.length) ∨
        (∃ v, updNullDate.score = RawField.val v ∧ (v < 0 ∨ 100 < v)) ∨
        (∃ v, updNullDate.budget = RawField.val v ∧ v < 0) ∨
        (∃ v, updNullDate.revenue = RawField.val v ∧ v < 0) ∨
        (∃ v, updNullDate.date = RawField.val v ∧ (0 : Int) + 365 < v))) ∧
    (∀ md, validateMovieUpdate 0 updNullDate ≠ .ok md) ∧
    (∀ e, validateMovieUpdate 0 updNullDate ≠ .error (.validation e)) ∧
    validateMovieUpdate 0 updNullDate =
      .error (.typeError "unsupported comparison between NoneType and date") := by
  have hc : validateMovieUpdate 0 updNullDate =
      .error (.typeError "unsupported comparison between NoneType and date") := rfl
  refine ⟨?_, ?_, ?_, hc⟩
  · simp [updNullDate]
  · intro md h
    rw [hc] at h
    simp at h
  · intro e h
    rw [hc] at h
    simp at h

lemma countKey_append {α : Type} (key : α → String) (l t : List α) (k : String) :
    countKey key (l ++ t) k = countKey key l k + countKey key t k := by
  simp [countKey, List.filter_append]

lemma countKey_eq_zero {α : Type} {key : α → String} {l : List α} {k : String} :
    countKey key l k = 0 ↔ ∀ x ∈ l, key x ≠ k := by
  simp [countKey, List.length_eq_zero, List.filter_eq_nil_iff, beq_iff_eq]

lemma countKey_pos {α : Type} {key : α → String} {l : List α} {k : String}
    {x : α} (hx : x ∈ l) (hk : key x = k) : 1 ≤ countKey key l k := by
  have hmem : x ∈ l.filter (fun y => key y == k) :=
    List.mem_filter.mpr ⟨hx, by simp [hk]⟩
  exact List.length_pos_of_mem hmem

lemma uniqueKeys_count_le_one {α : Type} {key : α → String} {l : List α}
    (h : uniqueKeys key l) (k : String) : countKey key l k ≤ 1 := by
  induction l with
  | nil => simp [countKey]
  | cons a l ih =>
      rw [uniqueKeys, List.map_cons, List.nodup_cons] at h
      by_cases ha : (key a == k) = true
      · have hka : key a = k := by simpa using ha
        have h0 : countKey key l k = 0 := countKey_eq_zero.mpr (fun x hx hke =>
          h.1 (by
            rw [hka, ← hke]
            exact List.mem_map_of_mem key hx))
        have hfc : List.filter (fun x => key x == k) (a :: l) =
            a :: List.filter (fun x => key x == k) l := by
          simp [List.filter_cons, ha]
        rw [countKey, hfc, List.length_cons]
        rw [countKey] at h0
        omega
      · have hfc : List.filter (fun x => key x == k) (a :: l) =
            List.filter (fun x => key x == k) l := by
          simp [List.filter_cons, ha]
        rw [countKey, hfc]
        exact ih h.2

lemma uniqueKeys_append_single {α : Type} {key : α → String} {l : List α} {y : α}
    (h : uniqueKeys key l) (hy : ∀ x ∈ l, key x ≠ key y) :
    uniqueKeys key (l ++ [y]) := by
  rw [uniqueKeys, List.map_append, List.map_singleton]
  refine List.Nodup.append h (List.nodup_singleton _) ?_
  intro a ha hb
  rcases List.mem_singleton.mp hb with rfl
  obtain ⟨x, hx, hxa⟩ := List.mem_map.mp ha
  exact hy x hx hxa

lemma countKey_extend_one {α : Type} {key : α → String} {l t : List α} {k : String}
    (h1 : countKey key l k = 1) (hu : uniqueKeys key (l ++ t)) :
    countKey key (l ++ t) k = 1 := by
  have hle := uniqueKeys_count_le_one hu k
  rw [countKey_append] at hle ⊢
  omega

lemma getOrCreateCountry_genres (db : Catalog) (code : String) :
    (getOrCreateCountry db code).2.genres = db.genres := by
  unfold getOrCreateCountry
  cases db.countries.find? (fun c => c.code == code) <;> rfl

lemma getOrCreateCountry_actors (db : Catalog) (code : String) :
    (getOrCreateCountry db code).2.actors = db.actors := by
  unfold getOrCreateCountry
  cases db.countries.find? (fun c => c.code == code) <;> rfl

lemma getOrCreateCountry_languages (db : Catalog) (code : String) :
    (getOrCreateCountry db code).2.languages = db.languages := by
  unfold getOrCreateCountry
  cases db.countries.find? (fun c => c.code == code) <;> rfl

lemma getOrCreateCountry_nextGenreId (db : Catalog) (code : String) :
    (getOrCreateCountry db code).2.nextGenreId = db.nextGenreId := by
  unfold getOrCreateCountry
  cases db.countries.find? (fun c => c.code == code) <;> rfl

lemma getOrCreateCountry_nextActorId (db : Catalog) (code : String) :
    (getOrCreateCountry db code).2.nextActorId = db.nextActorId := by
  unfold getOrCreateCountry
  cases db.countries.find? (fun c => c.code == code) <;> rfl

lemma getOrCreateCountry_nextLanguageId (db : Catalog) (code : String) :
    (getOrCreateCountry db code).2.nextLanguageId = db.nextLanguageId := by
  unfold getOrCreateCountry
  cases db.countries.find? (fun c => c.code == code) <;> rfl

lemma getOrCreateCountry_countries (db : Catalog) (code : String)
    (h : uniqueKeys (fun c => c.code) db.countries) :
    uniqueKeys (fun c => c.code) (getOrCreateCountry db code).2.countries ∧
    countKey (fun c => c.code) (getOrCreateCountry db code).2.countries code = 1 ∧
    ((∀ c ∈ db.countries, c.code ≠ code) →
      (getOrCreateCountry db code).2.countries =
        db.countries ++ [{ id := db.nextCountryId, code := code, name := none }]) ∧
    ((∃ c ∈ db.countries, c.code = code) →
      (getOrCreateCountry db code).2.countries = db.countries) := by
  unfold getOrCreateCountry
  cases hf : db.countries.find? (fun c => c.code == code) with
  | some c =>
      dsimp only
      have hc0 := List.find?_some hf
      have hcc : c.code = code := by simpa using hc0
      have hcm := List.mem_of_find?_eq_some hf
      refine ⟨h, ?_, ?_, fun _ => rfl⟩
      · have hle := uniqueKeys_count_le_one h code
        have hge : 1 ≤ countKey (fun c => c.code) db.countries code :=
          countKey_pos hcm hcc
        omega
      · intro habs
        exact absurd hcc (habs c hcm)
  | none =>
      dsimp only
      have hall : ∀ c ∈ db.countries, c.code ≠ code := by
        intro c hc
        simpa using List.find?_eq_none.mp hf c hc
      refine ⟨?_, ?_, fun _ => rfl, ?_⟩
      · exact uniqueKeys_append_single h (fun x hx => hall x hx)
      · rw [countKey_append]
        rw [countKey_eq_zero.mpr hall]
        simp [countKey]
      · intro ⟨c, hc, hcc⟩
        exact absurd hcc (hall c hc)

lemma getOrCreateNamed_spec (rows : List NamedModel) (nextId : Nat) (nm : String)
    (h : uniqueKeys (fun g => g.name) rows) :
    uniqueKeys (fun g => g.name) (getOrCreateNamed rows nextId nm).2.1 ∧
    countKey (fun g => g.name) (getOrCreateNamed rows nextId nm).2.1 nm = 1 ∧
    (∃ t, (getOrCreateNamed rows nextId nm).2.1 = rows ++ t) := by
  unfold getOrCreateNamed
  cases hf : rows.find? (fun g => g.name == nm) with
  | some g =>
      dsimp only
      have hgn : g.name = nm := by simpa using List.find?_some hf
      have hgm := List.mem_of_find?_eq_some hf
      refine ⟨h, ?_, [], by simp⟩
      have hle := uniqueKeys_count_le_one h nm
      have hge : 1 ≤ countKey (fun g => g.name) rows nm := countKey_pos hgm hgn
      omega
  | none =>
      dsimp only
      have hall : ∀ g ∈ rows, g.name ≠ nm := by
        intro g hg
        simpa using List.find?_eq_none.mp hf g hg
      refine ⟨?_, ?_, ⟨_, rfl⟩⟩
      · exact uniqueKeys_append_single h (fun x hx => hall x hx)
      · rw [countKey_append, countKey_eq_zero.mpr hall]
        simp [countKey]

lemma getOrCreateNamedList_spec (names : List String) :
    ∀ (rows : List NamedModel) (nextId : Nat),
      uniqueKeys (fun g => g.name) rows →
      uniqueKeys (fun g => g.name) (getOrCreateNamedList rows nextId names).2.1 ∧
      (∃ t, (getOrCreateNamedList rows nextId names).2.1 = rows ++ t) ∧
      (∀ nm ∈ names, countKey (fun g => g.name)
        (getOrCreateNamedList rows nextId names).2.1 nm = 1) := by
  induction names with
  | nil =>
      intro rows nextId h
      exact ⟨h, ⟨[], by simp [getOrCreateNamedList]⟩, by simp⟩
  | cons n rest ih =>
      intro rows nextId h
      obtain ⟨hu1, hc1, t1, he1⟩ := getOrCreateNamed_spec rows nextId n h
      obtain ⟨hu2, ⟨t2, he2⟩, hcs⟩ :=
        ih (getOrCreateNamed rows nextId n).2.1 (getOrCreateNamed rows nextId n).2.2 hu1
      have hred : (getOrCreateNamedList rows nextId (n :: rest)).2.1 =
          (getOrCreateNamedList (getOrCreateNamed rows nextId n).2.1
            (getOrCreateNamed rows nextId n).2.2 rest).2.1 := rfl
      rw [hred]
      refine ⟨hu2, ⟨t1 ++ t2, by rw [he2, he1, List.append_assoc]⟩, ?_⟩
      intro nm hm
      rcases List.mem_cons.mp hm with rfl | hm2
      · have hext : (getOrCreateNamedList (getOrCreateNamed rows nextId nm).2.1
            (getOrCreateNamed rows nextId nm).2.2 rest).2.1 =
            (getOrCreateNamed rows nextId nm).2.1 ++ t2 := he2
        rw [hext]
        exact countKey_extend_one hc1 (by rw [← hext]; exact hu2)
      · exact hcs nm hm2

lemma create_movie_eq (db : Catalog) (p : MovieCreateSchema)
    (hf : db.movies.find?
      (fun m => m.name == some p.name && m.date == some p.date) = none) :
    create_movie db p = .ok (createResult db p) := by
  unfold create_movie createResult
  rw [hf]

lemma createResult_countries (db : Catalog) (p : MovieCreateSchema) :
    (createResult db p).1.countries =
      (getOrCreateCountry db p.country).2.countries := rfl

lemma createResult_genres (db : Catalog) (p : MovieCreateSchema) :
    (createResult db p).1.genres =
      (getOrCreateNamedList db.genres db.nextGenreId p.genres).2.1 := by
  have h0 : (createResult db p).1.genres =
      (getOrCreateNamedList (getOrCreateCountry db p.country).2.genres
        (getOrCreateCountry db p.country).2.nextGenreId p.genres).2.1 := rfl
  rw [h0, getOrCreateCountry_genres, getOrCreateCountry_nextGenreId]

lemma createResult_actors (db : Catalog) (p : MovieCreateSchema) :
    (createResult db p).1.actors =
      (getOrCreateNamedList db.actors db.nextActorId p.actors).2.1 := by
  have h0 : (createResult db p).1.actors =
      (getOrCreateNamedList (getOrCreateCountry db p.country).2.actors
        (getOrCreateCountry db p.country).2.nextActorId p.actors).2.1 := rfl
  rw [h0, getOrCreateCountry_actors, getOrCreateCountry_nextActorId]

lemma createResult_languages (db : Catalog) (p : MovieCreateSchema) :
    (createResult db p).1.languages =
      (getOrCreateNamedList db.languages db.nextLanguageId p.languages).2.1 := by
  have h0 : (createResult db p).1.languages =
      (getOrCreateNamedList (getOrCreateCountry db p.country).2.languages
        (getOrCreateCountry db p.country).2.nextLanguageId p.languages).2.1 := rfl
  rw [h0, getOrCreateCountry_languages, getOrCreateCountry_nextLanguageId]

/-- C4: a successful create resolves its country code and each
genre/actor/language name to the existing row when one exists (the
table is then unchanged for that key) and otherwise appends exactly one
new row (for a country: with null name); uniqueness of country codes and
of genre/actor/language names is preserved, every referenced key ends up
on exactly one row, and no existing row is removed. -/
theorem create_lookup_upsert (db : Catalog) (p : MovieCreateSchema)
    (db2 : Catalog) (det : MovieDetailSchema)
    (hcu : uniqueKeys (fun c => c.code) db.countries)
    (hgu : uniqueKeys (fun g => g.name) db.genres)
    (hau : uniqueKeys (fun a => a.name) db.actors)
    (hlu : uniqueKeys (fun l => l.name) db.languages)
    (hok : create_movie db p = .ok (db2, det)) :
    uniqueKeys (fun c => c.code) db2.countries ∧
    countKey (fun c => c.code) db2.countries p.country = 1 ∧
    ((∀ c ∈ db.countries, c.code ≠ p.country) →
      db2.countries = db.countries ++
        [{ id := db.nextCountryId, code := p.country, name := none }]) ∧
    ((∃ c ∈ db.countries, c.code = p.country) → db2.countries = db.countries) ∧
    uniqueKeys (fun g => g.name) db2.genres ∧
    (∃ t, db2.genres = db.genres ++ t) ∧
    (∀ nm ∈ p.genres, countKey (fun g => g.name) db2.genres nm = 1) ∧
    uniqueKeys (fun a => a.name) db2.actors ∧
    (∃ t, db2.actors = db.actors ++ t) ∧
    (∀ nm ∈ p.actors, countKey (fun a => a.name) db2.actors nm = 1) ∧
    uniqueKeys (fun l => l.name) db2.languages ∧
    (∃ t, db2.languages = db.languages ++ t) ∧
    (∀ nm ∈ p.languages, countKey (fun l => l.name) db2.languages nm = 1) := by
  cases hf : db.movies.find?
      (fun m => m.name == some p.name && m.date == some p.date) with
  | some m =>
      unfold create_movie at hok
      rw [hf] at hok
      simp at hok
  | none =>
      rw [create_movie_eq db p hf] at hok
      injection hok with hpair
      have hfst : (createResult db p).1 = db2 := congrArg Prod.fst hpair
      subst hfst
      rw [createResult_countries, createResult_genres, createResult_actors,
        createResult_languages]
      obtain ⟨hcu2, hcc, habs, hex⟩ := getOrCreateCountry_countries db p.country hcu
      obtain ⟨hgu2, hge, hgc⟩ :=
        getOrCreateNamedList_spec p.genres db.genres db.nextGenreId hgu
      obtain ⟨hau2, hae, hac⟩ :=
        getOrCreateNamedList_spec p.actors db.actors db.nextActorId hau
      obtain ⟨hlu2, hle, hlc⟩ :=
        getOrCreateNamedList_spec p.languages db.languages db.nextLanguageId hlu
      exact ⟨hcu2, hcc, habs, hex, hgu2, hge, hgc, hau2, hae, hac, hlu2, hle, hlc⟩

/-! ### Witnesses: the claim theorems applied at concrete inputs -/

theorem update_country_dropped_witness :
    validate_country updInputW = .ok { updInputW with country := .val (pyUpper "fr") } :=
  (update_country_dropped 0 updInputW "fr" rfl).2.1 (by decide)

theorem create_lookup_upsert_witness :
    uniqueKeys (fun c => c.code) (createResult dbW payW).1.countries ∧
    countKey (fun c => c.code) (createResult dbW payW).1.countries payW.country = 1 ∧
    (∀ nm ∈ payW.genres,
      countKey (fun g => g.name) (createResult dbW payW).1.genres nm = 1) := by
  obtain ⟨h1, h2, _, _, _, _, h7, _⟩ :=
    create_lookup_upsert dbW payW (createResult dbW payW).1 (createResult dbW payW).2
      (by unfold uniqueKeys; decide) (by unfold uniqueKeys; decide)
      (by unfold uniqueKeys; decide) (by unfold uniqueKeys; decide)
      (create_movie_eq dbW payW (by decide))
  exact ⟨h1, h2, h7⟩

theorem list_pagination_correct_witness :
    ∃ r, get_movies_list dbW 1 2 = .ok r ∧
      r.movies.length ≤ 2 ∧ r.total_items = dbW.movies.length := by
  obtain ⟨r, h1, _, h3, _, _, h6, _⟩ :=
    list_pagination_correct dbW 1 2 (by decide) (by decide) (by decide)
      (by decide) (by decide)
  exact ⟨r, h1, h3, h6⟩

theorem list_not_found_iff_witness :
    (∃ d, get_movies_list dbEmpty 1 10 = .error (.notFound d)) ↔
      dbEmpty.movies.length = 0 ∨
        (dbEmpty.movies.length + 10 - 1) / 10 < 1 :=
  list_not_found_iff dbEmpty 1 10 (by decide) (by decide) (by decide)

theorem update_partial_semantics_witness :
    ∃ db2, update_movie dbW 2 updW = .ok (db2, "Movie updated successfully.") ∧
      db2.movies.find? (fun x => x.id == 2) = some (applyUpdate (movieW 2) updW) ∧
      (applyUpdate (movieW 2) updW).name = (movieW 2).name := by
  obtain ⟨db2, h1, h2, _, _, _, _, _, _, _, hname, _⟩ :=
    update_partial_semantics dbW 2 updW (movieW 2) (by decide) (by decide) (by decide)
  exact ⟨db2, h1, h2, hname rfl⟩

theorem delete_not_found_iff_witness :
    ∃ db2, delete_movie dbW 2 = .ok db2 ∧
      db2.movies.length + 1 = dbW.movies.length ∧
      (∃ d, get_movie db2 2 = .error (.notFound d)) := by
  obtain ⟨_, h2⟩ := delete_not_found_iff dbW 2 (by decide)
  obtain ⟨db2, hd, hlen, _, _, _, _, _, _, hget⟩ :=
    h2 (movieW 2) (by decide) (by decide)
  exact ⟨db2, hd, hlen, hget⟩

theorem pagination_links_correct_witness :
    ∃ r, get_movies_list dbW 2 2 = .ok r ∧
      r.prev_page = some (pageLink 1 2) ∧ r.next_page = none := by
  obtain ⟨r, h1, _, h3, h4, _⟩ :=
    pagination_links_correct dbW 2 2 (by decide) (by decide) (by decide)
      (by decide) (by decide)
  exact ⟨r, h1, by simpa using h4 (by decide), h3.mpr (by decide)⟩

theorem update_null_fields_applied_witness :
    ∃ db2, update_movie dbW 2 updW = .ok (db2, "Movie updated successfully.") ∧
      (applyUpdate (movieW 2) updW).overview = none ∧
      (applyUpdate (movieW 2) updW).score = some 80 := by
  obtain ⟨db2, h1, _, _, _, _, hov, _⟩ :=
    update_null_fields_applied dbW 2 updW (movieW 2) (by decide) (by decide) (by decide)
  exact ⟨db2, h1, hov rfl, by decide⟩
